import Mathlib

/-!
Verification development for the modal-claude-agent-sdk-python repository.

The development shallowly embeds the parts of the code that the checked
properties are about:

* the in-sandbox runner script (RUNNER_SCRIPT in _constants.py): the
  correlation registry (module globals _response_events / _response_data),
  emit_message, register_response_event, get_response, the
  StdinResponseReader line handler, and the request/await phases of
  HostToolProxy.call_tool and HookProxy.pre_tool_use;
* the host-side HookDispatcher (_host_hooks.py): should_intercept,
  dispatch_pre_tool_use, dispatch_post_tool_use;
* the host-side HostToolDispatcher (_host_tools.py): the tool map,
  get_tool and dispatch;
* the exit-code handling and the line-reading loop of
  SandboxManager (_sandbox.py).

Python dicts are modelled as association lists with unique keys
(assignment replaces, pop removes), Python exceptions as Except, the
asyncio suspensions as explicit state passing, and wall-clock timeout
expiry as an explicit boolean input.  JSON values are a small inductive
type; json.dumps is modelled by a structural serializer.
-/

/-- JSON-like values: the shape of Python dict/list/str/int/bool/None data
that crosses the stdin/stdout line protocol. -/
inductive JsonVal where
  | str (s : String)
  | num (n : Int)
  | bool (b : Bool)
  | null
  | arr (xs : List JsonVal)
  | obj (kvs : List (String × JsonVal))
deriving Repr

mutual

/-- Structural equality on JSON values (Python == on decoded JSON data). -/
def JsonVal.beq : JsonVal → JsonVal → Bool
  | .str a, .str b => a == b
  | .num a, .num b => a == b
  | .bool a, .bool b => a == b
  | .null, .null => true
  | .arr xs, .arr ys => beqArr xs ys
  | .obj xs, .obj ys => beqObj xs ys
  | _, _ => false

/-- Pointwise equality of JSON arrays. -/
def beqArr : List JsonVal → List JsonVal → Bool
  | [], [] => true
  | x :: xs, y :: ys => JsonVal.beq x y && beqArr xs ys
  | _, _ => false

/-- Pointwise equality of JSON objects (ordered key-value lists). -/
def beqObj : List (String × JsonVal) → List (String × JsonVal) → Bool
  | [], [] => true
  | (k, v) :: xs, (l, w) :: ys => k == l && JsonVal.beq v w && beqObj xs ys
  | _, _ => false

end

mutual

theorem JsonVal.beq_iff : ∀ (a b : JsonVal), JsonVal.beq a b = true ↔ a = b
  | .str a, .str b => by simp [JsonVal.beq]
  | .str _, .num _ => by simp [JsonVal.beq]
  | .num a, .num b => by simp [JsonVal.beq]
  | .bool a, .bool b => by simp [JsonVal.beq]
  | .null, .null => by simp [JsonVal.beq]
  | .arr xs, .arr ys => by simp [JsonVal.beq, beqArr_iff xs ys]
  | .obj xs, .obj ys => by simp [JsonVal.beq, beqObj_iff xs ys]
  | .str _, .bool _ => by simp [JsonVal.beq]
  | .str _, .null => by simp [JsonVal.beq]
  | .str _, .arr _ => by simp [JsonVal.beq]
  | .str _, .obj _ => by simp [JsonVal.beq]
  | .num _, .str _ => by simp [JsonVal.beq]
  | .num _, .bool _ => by simp [JsonVal.beq]
  | .num _, .null => by simp [JsonVal.beq]
  | .num _, .arr _ => by simp [JsonVal.beq]
  | .num _, .obj _ => by simp [JsonVal.beq]
  | .bool _, .str _ => by simp [JsonVal.beq]
  | .bool _, .num _ => by simp [JsonVal.beq]
  | .bool _, .null => by simp [JsonVal.beq]
  | .bool _, .arr _ => by simp [JsonVal.beq]
  | .bool _, .obj _ => by simp [JsonVal.beq]
  | .null, .str _ => by simp [JsonVal.beq]
  | .null, .num _ => by simp [JsonVal.beq]
  | .null, .bool _ => by simp [JsonVal.beq]
  | .null, .arr _ => by simp [JsonVal.beq]
  | .null, .obj _ => by simp [JsonVal.beq]
  | .arr _, .str _ => by simp [JsonVal.beq]
  | .arr _, .num _ => by simp [JsonVal.beq]
  | .arr _, .bool _ => by simp [JsonVal.beq]
  | .arr _, .null => by simp [JsonVal.beq]
  | .arr _, .obj _ => by simp [JsonVal.beq]
  | .obj _, .str _ => by simp [JsonVal.beq]
  | .obj _, .num _ => by simp [JsonVal.beq]
  | .obj _, .bool _ => by simp [JsonVal.beq]
  | .obj _, .null => by simp [JsonVal.beq]
  | .obj _, .arr _ => by simp [JsonVal.beq]

theorem beqArr_iff : ∀ (xs ys : List JsonVal), beqArr xs ys = true ↔ xs = ys
  | [], [] => by simp [beqArr]
  | [], _ :: _ => by simp [beqArr]
  | _ :: _, [] => by simp [beqArr]
  | x :: xs, y :: ys => by
      simp [beqArr, JsonVal.beq_iff x y, beqArr_iff xs ys]

theorem beqObj_iff : ∀ (xs ys : List (String × JsonVal)), beqObj xs ys = true ↔ xs = ys
  | [], [] => by simp [beqObj]
  | [], _ :: _ => by simp [beqObj]
  | _ :: _, [] => by simp [beqObj]
  | (k, v) :: xs, (l, w) :: ys => by
      simp [beqObj, JsonVal.beq_iff v w, beqObj_iff xs ys, Prod.ext_iff, and_assoc]

end

instance : DecidableEq JsonVal := fun a b => decidable_of_iff _ (JsonVal.beq_iff a b)

mutual

/-- json.dumps with the default separators, restricted to the value shapes
this embedding carries.  String escaping is not modelled (none of the
checked properties produce strings that need escaping). -/
def JsonVal.dumps : JsonVal → String
  | .str s => "\"" ++ s ++ "\""
  | .num n => toString n
  | .bool true => "true"
  | .bool false => "false"
  | .null => "null"
  | .arr xs => "[" ++ dumpsArr xs ++ "]"
  | .obj kvs => "\x7b" ++ dumpsObj kvs ++ "\x7d"

/-- Comma-joined serialization of a JSON array body. -/
def dumpsArr : List JsonVal → String
  | [] => ""
  | [x] => JsonVal.dumps x
  | x :: y :: rest => JsonVal.dumps x ++ ", " ++ dumpsArr (y :: rest)

/-- Comma-joined serialization of a JSON object body. -/
def dumpsObj : List (String × JsonVal) → String
  | [] => ""
  | [(k, v)] => "\"" ++ k ++ "\": " ++ JsonVal.dumps v
  | (k, v) :: y :: rest =>
      "\"" ++ k ++ "\": " ++ JsonVal.dumps v ++ ", " ++ dumpsObj (y :: rest)

end

/-- Python str() on a decoded JSON value, used only on the catch-all branch
of result normalization (str(result) for a non-dict non-str value). -/
def pyStr : JsonVal → String
  | .str s => s
  | .num n => toString n
  | .bool true => "True"
  | .bool false => "False"
  | .null => "None"
  | v => JsonVal.dumps v

/-- An Anthropic text content block, as the dict literal
that the source builds in several places. -/
def textBlock (t : String) : JsonVal :=
  .obj [("type", .str "text"), ("text", .str t)]

/-- Python substring containment (pat in s). -/
def strContains (s pat : String) : Bool := decide (pat.data <:+: s.data)

/-! ## Python dict model

The source keeps its correlation state in dicts keyed by request_id.
They are modelled as association lists; dict assignment replaces the
value of an existing key in place, dict.pop removes the key. -/

/-- Python dict lookup d.get(k): the value at the first (unique) binding. -/
def assocGet {α : Type} (k : String) : List (String × α) → Option α
  | [] => none
  | (k0, v) :: rest => if k0 = k then some v else assocGet k rest

/-- Python dict assignment d[k] = v: replace in place if the key exists,
otherwise append the new binding. -/
def assocSet {α : Type} (k : String) (v : α) : List (String × α) → List (String × α)
  | [] => [(k, v)]
  | (k0, v0) :: rest =>
      if k0 = k then (k, v) :: rest else (k0, v0) :: assocSet k v rest

/-- Python dict.pop(k, None): remove the binding of k.  Since dict keys are
unique, removing every binding of k coincides with removing the one binding. -/
def assocPop {α : Type} (k : String) (m : List (String × α)) : List (String × α) :=
  m.filter (fun p => p.1 ≠ k)

theorem assocGet_assocPop {α : Type} (k : String) (m : List (String × α)) :
    assocGet k (assocPop k m) = none := by
  induction m with
  | nil => simp [assocPop, assocGet]
  | cons p rest ih =>
      by_cases h : p.1 = k
      · simpa [assocPop, h] using ih
      · simpa [assocPop, assocGet, h] using ih

theorem assocGet_assocSet_self {α : Type} (k : String) (v : α) (m : List (String × α)) :
    assocGet k (assocSet k v m) = some v := by
  induction m with
  | nil => simp [assocSet, assocGet]
  | cons p rest ih =>
      by_cases h : p.1 = k
      · cases p; simp_all [assocSet, assocGet]
      · cases p; simp_all [assocSet, assocGet]

theorem assocGet_assocSet_ne {α : Type} (k k0 : String) (v : α) (m : List (String × α))
    (h : k0 ≠ k) : assocGet k0 (assocSet k v m) = assocGet k0 m := by
  induction m with
  | nil => simp [assocSet, assocGet, Ne.symm h]
  | cons p rest ih =>
      cases p with
      | mk k1 v1 =>
          by_cases h1 : k1 = k
          · subst h1
            simp [assocSet, assocGet, Ne.symm h]
          · by_cases h2 : k1 = k0 <;> simp [assocSet, assocGet, h1, h2, h, ih]

/-- Keys of an association list are pairwise distinct (dict invariant). -/
def keysUnique {α : Type} (m : List (String × α)) : Prop :=
  (m.map Prod.fst).Nodup

theorem map_fst_assocSet {α : Type} (k : String) (v : α) (m : List (String × α)) :
    (assocSet k v m).map Prod.fst =
      if k ∈ m.map Prod.fst then m.map Prod.fst else m.map Prod.fst ++ [k] := by
  induction m with
  | nil => simp [assocSet]
  | cons q qrest ihq =>
      cases q with
      | mk kq vq =>
          by_cases hq : kq = k
          · subst hq
            simp [assocSet]
          · simp only [assocSet, hq, if_false, List.map_cons, List.mem_cons, Ne.symm hq,
              false_or, ihq]
            by_cases hm : k ∈ qrest.map Prod.fst <;> simp [hm]

theorem keysUnique_assocSet {α : Type} (k : String) (v : α) (m : List (String × α))
    (h : keysUnique m) : keysUnique (assocSet k v m) := by
  unfold keysUnique
  rw [map_fst_assocSet]
  by_cases hm : k ∈ m.map Prod.fst
  · simpa [hm] using h
  · have hd : (m.map Prod.fst).Disjoint [k] := by
      intro a ha hk
      simp only [List.mem_singleton] at hk
      subst hk
      exact hm ha
    simp only [hm, if_false]
    exact (List.nodup_append).mpr ⟨h, List.nodup_singleton k, hd⟩

/-! ## The in-sandbox runner (RUNNER_SCRIPT in _constants.py)

The runner keeps two module-level dicts, _response_events (request_id to
asyncio.Event) and _response_data (request_id to decoded response dict),
and writes newline-delimited JSON to stdout via emit_message.  Events are
modelled by numeric identities handed out by a counter; an event that has
had set() called on it is recorded in the eventsSet list.  The transport
is the ordered list of messages written to stdout. -/

/-- A message written by emit_message: the msg_type tag plus the payload
fields actually sent by the runner. -/
inductive EmitMsg where
  | hostToolRequest (request_id server_name tool_name : String)
      (tool_input : JsonVal) (tool_use_id : String)
  | hookRequestPre (request_id tool_name : String) (tool_input : JsonVal)
      (tool_use_id session_id cwd : String)
  | hookRequestPost (request_id tool_name : String) (tool_input : JsonVal)
      (tool_result : String) (is_error : Bool) (tool_use_id session_id : String)
  | message (payload : JsonVal)
deriving DecidableEq, Repr

/-- A decoded response line arriving on the runner's stdin, with the dict
fields the runner reads: _type, request_id, and the kind-specific payload
fields (each optional, as dict.get returns None for a missing key). -/
structure WireResponse where
  rtype : Option String := none
  request_id : Option String := none
  content : Option JsonVal := none
  is_error : Option Bool := none
  decision : Option String := none
  reason : Option String := none
  updated_input : Option JsonVal := none
deriving DecidableEq, Repr

/-- The runner's module-level mutable state: the two correlation dicts,
the event-identity counter, the set-flags of events, and the ordered
transport (stdout) log. -/
structure RunnerState where
  events : List (String × Nat) := []
  data : List (String × WireResponse) := []
  nextEvent : Nat := 0
  eventsSet : List Nat := []
  transport : List EmitMsg := []
deriving DecidableEq, Repr

/-- emit_message: append one line to the stdout transport (the lock, flush,
fsync and settle delay serialize and harden the write; they do not change
which lines are written or their order). -/
def emit_message (msg : EmitMsg) (s : RunnerState) : RunnerState :=
  { s with transport := s.transport ++ [msg] }

/-- register_response_event: create a fresh asyncio.Event and store it under
request_id (dict assignment), returning the event. -/
def register_response_event (request_id : String) (s : RunnerState) : Nat × RunnerState :=
  (s.nextEvent,
   { s with
      events := assocSet request_id s.nextEvent s.events,
      nextEvent := s.nextEvent + 1 })

/-- get_response: pop and return the response stored for request_id,
also dropping the event entry. -/
def get_response (request_id : String) (s : RunnerState) : Option WireResponse × RunnerState :=
  (assocGet request_id s.data,
   { s with
      events := assocPop request_id s.events,
      data := assocPop request_id s.data })

/-- One iteration of StdinResponseReader._reader_loop on a decoded response
line: a line without request_id is skipped; otherwise the response is
stored in _response_data, and when an event is registered for the id it is
signaled (call_soon_threadsafe(event.set)). -/
def readerProcessLine (resp : WireResponse) (s : RunnerState) : RunnerState :=
  match resp.request_id with
  | none => s
  | some rid =>
      let s1 := { s with data := assocSet rid resp s.data }
      match assocGet rid s1.events with
      | some ev => { s1 with eventsSet := s1.eventsSet ++ [ev] }
      | none => s1

/-- The result dict returned by HostToolProxy.call_tool. -/
structure ToolCallResult where
  content : JsonVal
  is_error : Bool
deriving DecidableEq, Repr

/-- The request phase of HostToolProxy.call_tool: generate a request id
(passed in, uuid4 being environmental), register the event BEFORE emitting,
then emit the host_tool_request envelope.  Returns the event. -/
def callToolEmitPhase (server_name tool_name : String) (tool_input : JsonVal)
    (tool_use_id : String) (request_id : String) (s : RunnerState) : Nat × RunnerState :=
  let er := register_response_event request_id s
  (er.1, emit_message (.hostToolRequest request_id server_name tool_name tool_input tool_use_id) er.2)

/-- The wait phase of HostToolProxy.call_tool after the envelope was emitted.
timedOut records whether asyncio.wait_for expired before the event was set.
On timeout both dict entries are popped and the response is None; otherwise
get_response pops and returns the stored response.  A None response or a
response whose _type is not host_tool_response yields a synthesized error
result; otherwise the content and is_error fields are extracted with their
dict.get defaults. -/
def callToolAwaitPhase (request_id : String) (timedOut : Bool) (s : RunnerState) :
    ToolCallResult × RunnerState :=
  let rs : Option WireResponse × RunnerState :=
    if timedOut then
      (none,
       { s with
          events := assocPop request_id s.events,
          data := assocPop request_id s.data })
    else
      get_response request_id s
  match rs.1 with
  | none =>
      ({ content := .arr [textBlock "Timeout waiting for host tool response"],
         is_error := true }, rs.2)
  | some resp =>
      if resp.rtype ≠ some "host_tool_response" then
        ({ content := .arr [textBlock ("Invalid response type from host: " ++
              (match resp.rtype with | none => "None" | some t => t))],
           is_error := true }, rs.2)
      else
        ({ content := resp.content.getD (.arr []),
           is_error := resp.is_error.getD false }, rs.2)

/-- The request phase of HookProxy.pre_tool_use: register the event BEFORE
emitting, then emit the PreToolUse hook_request envelope. -/
def preToolUseEmitPhase (tool_name : String) (tool_input : JsonVal)
    (tool_use_id session_id cwd : String) (request_id : String) (s : RunnerState) :
    Nat × RunnerState :=
  let er := register_response_event request_id s
  (er.1, emit_message (.hookRequestPre request_id tool_name tool_input tool_use_id session_id cwd) er.2)

/-- The decision triple returned by HookProxy.pre_tool_use. -/
structure HookCallResult where
  decision : String
  reason : Option String := none
  updated_input : Option JsonVal := none
deriving DecidableEq, Repr

/-- The wait phase of HookProxy.pre_tool_use: on timeout both dict entries
are popped and the default (allow, None, None) is returned; a response of
the wrong _type also yields the allow default; otherwise the decision,
reason and updated_input fields are extracted with their dict.get
defaults. -/
def preToolUseAwaitPhase (request_id : String) (timedOut : Bool) (s : RunnerState) :
    HookCallResult × RunnerState :=
  let rs : Option WireResponse × RunnerState :=
    if timedOut then
      (none,
       { s with
          events := assocPop request_id s.events,
          data := assocPop request_id s.data })
    else
      get_response request_id s
  match rs.1 with
  | none => ({ decision := "allow" }, rs.2)
  | some resp =>
      if resp.rtype ≠ some "hook_response" then
        ({ decision := "allow" }, rs.2)
      else
        ({ decision := resp.decision.getD "allow",
           reason := resp.reason,
           updated_input := resp.updated_input }, rs.2)

/-- The runner states traversed by the request phase of
HostToolProxy.call_tool, in program order: initial, after
register_response_event, after emit_message. -/
def callToolPhaseStates (server_name tool_name : String) (tool_input : JsonVal)
    (tool_use_id request_id : String) (s : RunnerState) : List RunnerState :=
  [s, (register_response_event request_id s).2,
   (callToolEmitPhase server_name tool_name tool_input tool_use_id request_id s).2]

/-- The runner states traversed by the request phase of
HookProxy.pre_tool_use, in program order. -/
def preToolUsePhaseStates (tool_name : String) (tool_input : JsonVal)
    (tool_use_id session_id cwd request_id : String) (s : RunnerState) : List RunnerState :=
  [s, (register_response_event request_id s).2,
   (preToolUseEmitPhase tool_name tool_input tool_use_id session_id cwd request_id s).2]

/-- C1: in both HostToolProxy.call_tool and HookProxy.pre_tool_use the waiter
is registered (register_response_event) strictly before the request envelope
is written to the transport (emit_message): each phase is exactly
emit_message after register_response_event, and at every intermediate state
in which the request envelope is already on the transport, a live waiter for
its request_id exists. -/
theorem c1_register_before_emit
    (sn tn : String) (ti : JsonVal) (tu sid cwd rid : String) (s : RunnerState)
    (hht : EmitMsg.hostToolRequest rid sn tn ti tu ∉ s.transport)
    (hhk : EmitMsg.hookRequestPre rid tn ti tu sid cwd ∉ s.transport) :
    ((callToolEmitPhase sn tn ti tu rid s).2 =
        emit_message (.hostToolRequest rid sn tn ti tu) (register_response_event rid s).2
      ∧ ∀ st ∈ callToolPhaseStates sn tn ti tu rid s,
          EmitMsg.hostToolRequest rid sn tn ti tu ∈ st.transport →
            assocGet rid st.events = some s.nextEvent)
    ∧ ((preToolUseEmitPhase tn ti tu sid cwd rid s).2 =
        emit_message (.hookRequestPre rid tn ti tu sid cwd) (register_response_event rid s).2
      ∧ ∀ st ∈ preToolUsePhaseStates tn ti tu sid cwd rid s,
          EmitMsg.hookRequestPre rid tn ti tu sid cwd ∈ st.transport →
            assocGet rid st.events = some s.nextEvent) := by
  refine ⟨⟨rfl, ?_⟩, rfl, ?_⟩
  · intro st hst hmem
    simp only [callToolPhaseStates, List.mem_cons, List.not_mem_nil, or_false] at hst
    rcases hst with h | h | h
    · subst h; exact absurd hmem hht
    · subst h; exact absurd hmem hht
    · subst h
      simp [callToolEmitPhase, emit_message, register_response_event, assocGet_assocSet_self]
  · intro st hst hmem
    simp only [preToolUsePhaseStates, List.mem_cons, List.not_mem_nil, or_false] at hst
    rcases hst with h | h | h
    · subst h; exact absurd hmem hhk
    · subst h; exact absurd hmem hhk
    · subst h
      simp [preToolUseEmitPhase, emit_message, register_response_event, assocGet_assocSet_self]

theorem c1_register_before_emit_witness :
    assocGet "r1" (callToolEmitPhase "srv" "echo" .null "use1" "r1" {}).2.events = some 0 :=
  ((c1_register_before_emit "srv" "echo" .null "use1" "sess" "/workspace" "r1" {}
      (by simp) (by simp)).1.2
    (callToolEmitPhase "srv" "echo" .null "use1" "r1" {}).2
    (by simp [callToolPhaseStates])
    (by simp [callToolEmitPhase, emit_message, register_response_event]))

/-- C2 counterexample: a response arriving for a request_id with no live
waiter does NOT leave the registry state unchanged: the reader loop stores
the payload into _response_data unconditionally, before it even looks for a
waiter, and a later get_response for the same id would return it. -/
theorem c2_counterexample :
    readerProcessLine { rtype := some "host_tool_response", request_id := some "r1" } {} ≠
      ({} : RunnerState) ∧
    (get_response "r1"
        (readerProcessLine { rtype := some "host_tool_response", request_id := some "r1" } {})).1 =
      some { rtype := some "host_tool_response", request_id := some "r1" } := by
  decide

/-- C2 (amended): processing a response whose request_id has no live waiter
signals no event and leaves the waiter table and the set of signaled events
unchanged, but the payload is not discarded: the reader stores it in
_response_data, where a later get_response with the same request_id would
find and return it. -/
theorem c2_unsolicited_response_stored
    (resp : WireResponse) (rid : String) (s : RunnerState)
    (hrid : resp.request_id = some rid)
    (hnow : assocGet rid s.events = none) :
    readerProcessLine resp s = { s with data := assocSet rid resp s.data } ∧
    (readerProcessLine resp s).events = s.events ∧
    (readerProcessLine resp s).eventsSet = s.eventsSet ∧
    (get_response rid (readerProcessLine resp s)).1 = some resp := by
  refine ⟨?_, ?_, ?_, ?_⟩ <;>
    simp [readerProcessLine, hrid, hnow, get_response, assocGet_assocSet_self]

theorem c2_unsolicited_response_stored_witness :
    (get_response "r9"
        (readerProcessLine { request_id := some "r9" } ({} : RunnerState))).1 =
      some { request_id := some "r9" } :=
  (c2_unsolicited_response_stored { request_id := some "r9" } "r9" {} rfl rfl).2.2.2

/-- C4: when the wait phase times out, both emitters return a value instead
of raising: call_tool returns the synthesized is_error result with the
explanatory timeout text and pre_tool_use returns the fail-open allow
triple; in both cases the waiter entry (event and any stored data) is
removed from the registry. -/
theorem c4_timeout_fallback (rid : String) (s : RunnerState) :
    (callToolAwaitPhase rid true s).1 =
      { content := .arr [textBlock "Timeout waiting for host tool response"],
        is_error := true } ∧
    assocGet rid (callToolAwaitPhase rid true s).2.events = none ∧
    assocGet rid (callToolAwaitPhase rid true s).2.data = none ∧
    (preToolUseAwaitPhase rid true s).1 =
      { decision := "allow", reason := none, updated_input := none } ∧
    assocGet rid (preToolUseAwaitPhase rid true s).2.events = none ∧
    assocGet rid (preToolUseAwaitPhase rid true s).2.data = none := by
  refine ⟨?_, ?_, ?_, ?_, ?_, ?_⟩ <;>
    simp [callToolAwaitPhase, preToolUseAwaitPhase, assocGet_assocPop]

/-- C7 counterexample: register_response_event does not reject a request_id
that already has a live waiter: on a state where r1 is registered with
event 0 it silently replaces the entry with the fresh event 1. -/
theorem c7_counterexample :
    assocGet "r1" ({ events := [("r1", 0)], nextEvent := 1 } : RunnerState).events = some 0 ∧
    assocGet "r1"
        (register_response_event "r1"
          ({ events := [("r1", 0)], nextEvent := 1 } : RunnerState)).2.events = some 1 ∧
    (register_response_event "r1"
        ({ events := [("r1", 0)], nextEvent := 1 } : RunnerState)).2.events ≠ [("r1", 0)] := by
  decide

/-- C7 (amended): register_response_event never fails; it unconditionally
stores a fresh event under request_id, silently replacing any existing live
waiter.  Because dict assignment overwrites by key, the table still holds at
most one live record per request_id, and no other entry is disturbed. -/
theorem c7_register_replaces (rid : String) (s : RunnerState)
    (h : keysUnique s.events) :
    (register_response_event rid s).1 = s.nextEvent ∧
    assocGet rid (register_response_event rid s).2.events = some s.nextEvent ∧
    (∀ r2, r2 ≠ rid →
      assocGet r2 (register_response_event rid s).2.events = assocGet r2 s.events) ∧
    keysUnique (register_response_event rid s).2.events := by
  refine ⟨rfl, ?_, ?_, ?_⟩
  · simp [register_response_event, assocGet_assocSet_self]
  · intro r2 hne
    simp [register_response_event, assocGet_assocSet_ne _ _ _ _ hne]
  · simpa [register_response_event] using keysUnique_assocSet rid s.nextEvent s.events h

theorem c7_register_replaces_witness :
    assocGet "r1" (register_response_event "r1" ({} : RunnerState)).2.events = some 0 :=
  (c7_register_replaces "r1" {} (by simp [keysUnique])).2.1

/-! ## Host-side hook interception (_host_hooks.py)

The tool_filter regular expression (compiled with re.compile and tested
with pattern.match, which anchors at the beginning of the string) is
modelled by a classical regular-expression syntax with Brzozowski
derivatives; the compiled pattern of the source is the syntax tree, since
the textual parsing is done by the external re library. -/

/-- Regular expressions over characters. -/
inductive Regex where
  | emp
  | eps
  | chr (c : Char)
  | alt (r1 r2 : Regex)
  | cat (r1 r2 : Regex)
  | star (r : Regex)
deriving DecidableEq, Repr

/-- Whether the regular expression accepts the empty string. -/
def Regex.nullable : Regex → Bool
  | .emp => false
  | .eps => true
  | .chr _ => false
  | .alt r1 r2 => r1.nullable || r2.nullable
  | .cat r1 r2 => r1.nullable && r2.nullable
  | .star _ => true

/-- Brzozowski derivative with respect to one character. -/
def Regex.deriv : Regex → Char → Regex
  | .emp, _ => .emp
  | .eps, _ => .emp
  | .chr c, a => if c = a then .eps else .emp
  | .alt r1 r2, a => .alt (r1.deriv a) (r2.deriv a)
  | .cat r1 r2, a =>
      if r1.nullable then .alt (.cat (r1.deriv a) r2) (r2.deriv a)
      else .cat (r1.deriv a) r2
  | .star r, a => .cat (r.deriv a) (.star r)

/-- Whether the regular expression accepts exactly the string s. -/
def Regex.matchesFull (r : Regex) (s : List Char) : Bool :=
  (s.foldl Regex.deriv r).nullable

/-- Python re.Pattern.match: whether some prefix (possibly empty, possibly
all) of s is accepted, anchored at the beginning of s. -/
def Regex.matchStart : Regex → List Char → Bool
  | r, [] => r.nullable
  | r, c :: cs => r.nullable || (r.deriv c).matchStart cs

/-- A literal-string regular expression (the concatenation of its
characters), e.g. the compiled form of the pattern Edit. -/
def Regex.lit : List Char → Regex
  | [] => .eps
  | c :: cs => .cat (.chr c) (Regex.lit cs)

theorem Regex.matchStart_iff (r : Regex) (s : List Char) :
    r.matchStart s = true ↔ ∃ p q, s = p ++ q ∧ r.matchesFull p = true := by
  induction s generalizing r with
  | nil =>
      constructor
      · intro h
        exact ⟨[], [], rfl, by simpa [Regex.matchesFull, Regex.matchStart] using h⟩
      · rintro ⟨p, q, hpq, hm⟩
        have hp : p = [] := by cases p <;> simp_all
        subst hp
        simpa [Regex.matchesFull, Regex.matchStart] using hm
  | cons c cs ih =>
      simp only [Regex.matchStart, Bool.or_eq_true, ih]
      constructor
      · rintro (h | ⟨p, q, hpq, hm⟩)
        · exact ⟨[], c :: cs, rfl, by simpa [Regex.matchesFull] using h⟩
        · exact ⟨c :: p, q, by simp [hpq], by simpa [Regex.matchesFull] using hm⟩
      · rintro ⟨p, q, hpq, hm⟩
        cases p with
        | nil =>
            left
            simpa [Regex.matchesFull] using hm
        | cons p0 ptl =>
            right
            have hp0 : p0 = c ∧ ptl ++ q = cs := by
              have := hpq
              simp only [List.cons_append, List.cons.injEq] at this
              exact ⟨this.1.symm, this.2.symm⟩
            obtain ⟨h1, h2⟩ := hp0
            subst h1
            exact ⟨ptl, q, h2.symm, by simpa [Regex.matchesFull] using hm⟩

/-- The input handed to a pre-tool-use hook callback. -/
structure PreToolUseHookInput where
  tool_name : String
  tool_input : JsonVal
  tool_use_id : String
  session_id : String
  cwd : String
deriving DecidableEq, Repr

/-- The allow/deny literal of a PreToolUseHookResult. -/
inductive HookDecision where
  | allow
  | deny
deriving DecidableEq, Repr

/-- The result returned by a pre-tool-use hook callback. -/
structure PreToolUseHookResult where
  decision : HookDecision := .allow
  reason : Option String := none
  updated_input : Option JsonVal := none
deriving DecidableEq, Repr

/-- The input handed to a post-tool-use hook callback. -/
structure PostToolUseHookInput where
  tool_name : String
  tool_input : JsonVal
  tool_result : String
  is_error : Bool
  tool_use_id : String
  session_id : String
deriving DecidableEq, Repr

/-- A pre-tool-use callback.  A Python callback either returns a result or
raises; Except.error carries the exception message.  Sync/async callbacks
only differ in how the dispatcher awaits them, not in this value. -/
abbrev PreCallback : Type := PreToolUseHookInput → Except String PreToolUseHookResult

/-- A post-tool-use callback: runs for its host-side effect, modelled as a
transformer of an abstract host state sigma, or raises. -/
abbrev PostCallback (σ : Type) : Type := PostToolUseHookInput → σ → Except String σ

/-- ModalAgentHooks configuration.  The timeout field of the source is
wall-clock configuration consumed by the transport layer, not by the
dispatcher, and is not part of this model. -/
structure ModalAgentHooks (σ : Type) where
  pre_tool_use : List PreCallback := []
  post_tool_use : List (PostCallback σ) := []
  tool_filter : Option Regex := none

/-- HookDispatcher: the configuration plus the compiled tool-filter
pattern. -/
structure HookDispatcher (σ : Type) where
  hooks : ModalAgentHooks σ
  tool_filter_pattern : Option Regex

/-- HookDispatcher.__init__: compile hooks.tool_filter when present. -/
def mkHookDispatcher {σ : Type} (hooks : ModalAgentHooks σ) : HookDispatcher σ :=
  { hooks := hooks, tool_filter_pattern := hooks.tool_filter }

/-- HookDispatcher.should_intercept: no filter means intercept everything;
otherwise bool(pattern.match(tool_name)). -/
def HookDispatcher.should_intercept {σ : Type} (d : HookDispatcher σ)
    (tool_name : String) : Bool :=
  match d.tool_filter_pattern with
  | none => true
  | some p => p.matchStart tool_name.data

/-- The hook request dict sent by the sandbox, with the fields the
dispatcher reads via dict.get. -/
structure HookRequest where
  request_id : Option String := none
  hook_event : Option String := none
  tool_name : Option String := none
  tool_input : Option JsonVal := none
  tool_use_id : Option String := none
  session_id : Option String := none
  cwd : Option String := none
  tool_result : Option String := none
  is_error : Option Bool := none
deriving DecidableEq, Repr

/-- The hook response dict written back to the sandbox (the _type tag
hook_response is implicit in the type). -/
structure HookResponse where
  request_id : String
  decision : HookDecision
  reason : Option String := none
  updated_input : Option JsonVal := none
deriving DecidableEq, Repr

/-- The callback loop of HookDispatcher.dispatch_pre_tool_use: run the
callbacks in order over the working hook input; a raising callback is
caught and skipped; the first deny returns immediately with that
callback's reason; an updated_input replaces the working tool_input; when
the list is exhausted, allow, with updated_input included only when the
working tool_input differs from the original request's tool_input. -/
def dispatchPreLoop (cbs : List PreCallback) (request_id : String) (orig : JsonVal)
    (inp : PreToolUseHookInput) : HookResponse :=
  match cbs with
  | [] =>
      if inp.tool_input ≠ orig then
        { request_id := request_id, decision := .allow, updated_input := some inp.tool_input }
      else
        { request_id := request_id, decision := .allow }
  | cb :: rest =>
      match cb inp with
      | .error _ => dispatchPreLoop rest request_id orig inp
      | .ok result =>
          match result.decision with
          | .deny => { request_id := request_id, decision := .deny, reason := result.reason }
          | .allow =>
              match result.updated_input with
              | some ui => dispatchPreLoop rest request_id orig { inp with tool_input := ui }
              | none => dispatchPreLoop rest request_id orig inp

/-- HookDispatcher.dispatch_pre_tool_use.  freshId stands for the
uuid4 fallback used when the request carries no request_id. -/
def HookDispatcher.dispatch_pre_tool_use {σ : Type} (d : HookDispatcher σ)
    (req : HookRequest) (freshId : String) : HookResponse :=
  let request_id := req.request_id.getD freshId
  let tool_name := req.tool_name.getD ""
  if ¬ d.should_intercept tool_name then
    { request_id := request_id, decision := .allow }
  else
    dispatchPreLoop d.hooks.pre_tool_use request_id (req.tool_input.getD (.obj []))
      { tool_name := tool_name
        tool_input := req.tool_input.getD (.obj [])
        tool_use_id := req.tool_use_id.getD ""
        session_id := req.session_id.getD ""
        cwd := req.cwd.getD "" }

/-- The callback loop of HookDispatcher.dispatch_post_tool_use: run every
callback in order over the host state; a raising callback is caught and
the loop continues with the next one. -/
def dispatchPostLoop {σ : Type} (cbs : List (PostCallback σ))
    (inp : PostToolUseHookInput) (st : σ) : σ :=
  match cbs with
  | [] => st
  | cb :: rest =>
      match cb inp st with
      | .error _ => dispatchPostLoop rest inp st
      | .ok st2 => dispatchPostLoop rest inp st2

/-- HookDispatcher.dispatch_post_tool_use: nothing is returned to the
sandbox; only the host-side effects (the state sigma) remain. -/
def HookDispatcher.dispatch_post_tool_use {σ : Type} (d : HookDispatcher σ)
    (req : HookRequest) (st : σ) : σ :=
  let tool_name := req.tool_name.getD ""
  if ¬ d.should_intercept tool_name then st
  else
    dispatchPostLoop d.hooks.post_tool_use
      { tool_name := tool_name
        tool_input := req.tool_input.getD (.obj [])
        tool_result := req.tool_result.getD ""
        is_error := req.is_error.getD false
        tool_use_id := req.tool_use_id.getD ""
        session_id := req.session_id.getD "" } st

/-- Outcome of the specified pre-hook callback chain. -/
inductive ChainOutcome where
  | denied (reason : Option String)
  | allowed (final : JsonVal)
deriving DecidableEq, Repr

/-- Modelled from the spec: run each pre-callback in registration order over
the working tool_input, short-circuiting on the first deny (that callback's
reason is kept verbatim); an allow whose updated_input is present replaces
the working input seen by subsequent callbacks without stopping the chain;
a raising callback is treated as allow; when every callback has allowed,
the final working input is the outcome.  mk rebuilds the hook-input value
around a working tool_input. -/
def specPreChain (cbs : List PreCallback) (mk : JsonVal → PreToolUseHookInput)
    (working : JsonVal) : ChainOutcome :=
  match cbs with
  | [] => .allowed working
  | cb :: rest =>
      match cb (mk working) with
      | .error _ => specPreChain rest mk working
      | .ok r =>
          match r.decision with
          | .deny => .denied r.reason
          | .allow => specPreChain rest mk (r.updated_input.getD working)

/-- Modelled from the spec: the response built from the chain outcome — deny
carries the denying callback's reason; allow carries updated_input exactly
when the final working input differs from the original. -/
def specPreResponse (request_id : String) (orig : JsonVal) : ChainOutcome → HookResponse
  | .denied r => { request_id := request_id, decision := .deny, reason := r }
  | .allowed final =>
      if final ≠ orig then
        { request_id := request_id, decision := .allow, updated_input := some final }
      else
        { request_id := request_id, decision := .allow }

theorem dispatchPreLoop_eq_spec (cbs : List PreCallback) (rid : String) (orig : JsonVal)
    (base : PreToolUseHookInput) :
    ∀ w, dispatchPreLoop cbs rid orig { base with tool_input := w } =
      specPreResponse rid orig
        (specPreChain cbs (fun v => { base with tool_input := v }) w) := by
  induction cbs with
  | nil => intro w; rfl
  | cons cb rest ih =>
      intro w
      simp only [dispatchPreLoop, specPreChain]
      cases hcb : cb { base with tool_input := w } with
      | error m => exact ih w
      | ok r =>
          obtain ⟨rd, rr, ru⟩ := r
          cases rd with
          | deny => rfl
          | allow =>
              cases ru with
              | none => exact ih w
              | some ui => exact ih ui

/-- C3: on an intercepted tool, dispatch_pre_tool_use computes exactly the
specified chain: callbacks run in registration order over the working
tool_input (specPreChain); the first deny stops the chain and its reason is
returned verbatim (second conjunct, for any tail of callbacks); an allow
with updated_input replaces the working input seen by the rest of the chain
without stopping it (third conjunct); and when all callbacks allow, the
response carries updated_input exactly when the final working input differs
from the original request's tool_input (fourth conjunct and
specPreResponse). -/
theorem c3_pre_hook_chain {σ : Type} (d : HookDispatcher σ) (req : HookRequest)
    (freshId : String)
    (hint : d.should_intercept (req.tool_name.getD "") = true) :
    (d.dispatch_pre_tool_use req freshId =
      specPreResponse (req.request_id.getD freshId) (req.tool_input.getD (.obj []))
        (specPreChain d.hooks.pre_tool_use
          (fun v => { tool_name := req.tool_name.getD ""
                      tool_input := v
                      tool_use_id := req.tool_use_id.getD ""
                      session_id := req.session_id.getD ""
                      cwd := req.cwd.getD "" })
          (req.tool_input.getD (.obj []))))
    ∧ (∀ (cb : PreCallback) (rest : List PreCallback) (rid : String) (orig : JsonVal)
        (inp : PreToolUseHookInput) (r : PreToolUseHookResult),
        cb inp = .ok r → r.decision = .deny →
        dispatchPreLoop (cb :: rest) rid orig inp =
          { request_id := rid, decision := .deny, reason := r.reason })
    ∧ (∀ (cb : PreCallback) (rest : List PreCallback) (rid : String) (orig : JsonVal)
        (inp : PreToolUseHookInput) (r : PreToolUseHookResult) (ui : JsonVal),
        cb inp = .ok r → r.decision = .allow → r.updated_input = some ui →
        dispatchPreLoop (cb :: rest) rid orig inp =
          dispatchPreLoop rest rid orig { inp with tool_input := ui })
    ∧ (∀ (rid : String) (orig : JsonVal) (inp : PreToolUseHookInput),
        dispatchPreLoop [] rid orig inp =
          if inp.tool_input ≠ orig then
            { request_id := rid, decision := .allow, updated_input := some inp.tool_input }
          else
            { request_id := rid, decision := .allow }) := by
  refine ⟨?_, ?_, ?_, ?_⟩
  · have h := dispatchPreLoop_eq_spec d.hooks.pre_tool_use (req.request_id.getD freshId)
      (req.tool_input.getD (.obj []))
      { tool_name := req.tool_name.getD ""
        tool_input := req.tool_input.getD (.obj [])
        tool_use_id := req.tool_use_id.getD ""
        session_id := req.session_id.getD ""
        cwd := req.cwd.getD "" }
      (req.tool_input.getD (.obj []))
    simpa [HookDispatcher.dispatch_pre_tool_use, hint] using h
  · intro cb rest rid orig inp r hcb hd
    simp [dispatchPreLoop, hcb, hd]
  · intro cb rest rid orig inp r ui hcb hd hu
    simp [dispatchPreLoop, hcb, hd, hu]
  · intro rid orig inp
    rfl

theorem c3_pre_hook_chain_witness :
    (mkHookDispatcher (σ := Unit)
        { pre_tool_use := [fun _ => Except.ok { decision := .allow }] }).dispatch_pre_tool_use
        { request_id := some "r1", tool_name := some "Bash" } "fresh" =
      specPreResponse "r1" (.obj [])
        (specPreChain [fun _ => Except.ok { decision := .allow }]
          (fun v => { tool_name := "Bash", tool_input := v, tool_use_id := ""
                      session_id := "", cwd := "" })
          (.obj [])) :=
  (c3_pre_hook_chain
    (mkHookDispatcher (σ := Unit)
      { pre_tool_use := [fun _ => Except.ok { decision := .allow }] })
    { request_id := some "r1", tool_name := some "Bash" } "fresh" rfl).1

/-- C6: a raising callback is recovered locally, in both dispatch loops: a
raising pre-tool-use callback is skipped (treated as allow, the remaining
chain runs on the unchanged working input), a raising post-tool-use
callback does not prevent the subsequent post-callbacks from running, and
a succeeding post-callback passes its state on to the rest.  Both
dispatchers are total functions into plain (non-exceptional) result types,
so no callback failure can propagate out of them. -/
theorem c6_callback_errors_isolated {σ : Type} :
    (∀ (cb : PreCallback) (rest : List PreCallback) (rid : String) (orig : JsonVal)
        (inp : PreToolUseHookInput) (m : String),
        cb inp = .error m →
        dispatchPreLoop (cb :: rest) rid orig inp = dispatchPreLoop rest rid orig inp)
    ∧ (∀ (cb : PostCallback σ) (rest : List (PostCallback σ)) (inp : PostToolUseHookInput)
        (st : σ) (m : String),
        cb inp st = .error m →
        dispatchPostLoop (cb :: rest) inp st = dispatchPostLoop rest inp st)
    ∧ (∀ (cb : PostCallback σ) (rest : List (PostCallback σ)) (inp : PostToolUseHookInput)
        (st st2 : σ),
        cb inp st = .ok st2 →
        dispatchPostLoop (cb :: rest) inp st = dispatchPostLoop rest inp st2) := by
  refine ⟨?_, ?_, ?_⟩
  · intro cb rest rid orig inp m h
    simp [dispatchPreLoop, h]
  · intro cb rest inp st m h
    simp [dispatchPostLoop, h]
  · intro cb rest inp st st2 h
    simp [dispatchPostLoop, h]

theorem c6_callback_errors_isolated_witness :
    dispatchPreLoop
        [(fun _ => Except.error "boom" : PreCallback),
         (fun _ => Except.ok { decision := .deny, reason := some "no" })]
        "r1" (.obj [])
        { tool_name := "Bash", tool_input := .obj [], tool_use_id := ""
          session_id := "", cwd := "" } =
      dispatchPreLoop
        [(fun _ => Except.ok { decision := .deny, reason := some "no" } : PreCallback)]
        "r1" (.obj [])
        { tool_name := "Bash", tool_input := .obj [], tool_use_id := ""
          session_id := "", cwd := "" } :=
  (c6_callback_errors_isolated (σ := Unit)).1
    (fun _ => Except.error "boom")
    [(fun _ => Except.ok { decision := .deny, reason := some "no" })]
    "r1" (.obj [])
    { tool_name := "Bash", tool_input := .obj [], tool_use_id := ""
      session_id := "", cwd := "" }
    "boom" rfl

/-- C10: with a filter configured, should_intercept is exactly the anchored
prefix match of the compiled regex (some prefix of the tool name, possibly
the whole of it, matches), not a search or a full match: the filter Edit
does not intercept NotebookEdit, the filter Bash does intercept BashOutput,
and with no filter every tool name is intercepted. -/
theorem c10_tool_filter_anchored {σ : Type} (hooks0 : ModalAgentHooks σ)
    (r : Regex) (name : String) :
    ((mkHookDispatcher { hooks0 with tool_filter := some r }).should_intercept name = true ↔
      ∃ p q, name.data = p ++ q ∧ r.matchesFull p = true)
    ∧ (mkHookDispatcher { hooks0 with tool_filter := none }).should_intercept name = true
    ∧ (mkHookDispatcher ({ tool_filter := some (Regex.lit "Edit".data) } :
        ModalAgentHooks Unit)).should_intercept "NotebookEdit" = false
    ∧ (mkHookDispatcher ({ tool_filter := some (Regex.lit "Bash".data) } :
        ModalAgentHooks Unit)).should_intercept "BashOutput" = true := by
  refine ⟨?_, rfl, ?_, ?_⟩
  · simpa [mkHookDispatcher, HookDispatcher.should_intercept] using
      Regex.matchStart_iff r name.data
  · decide
  · decide

/-! ## Host-side tools (_host_tools.py) -/

/-- A host-side tool: name, description, input schema, and the handler.  A
handler either returns a value (dict / str / other, normalized by the
dispatcher) or raises; Except.error carries the exception message. -/
structure HostTool where
  name : String
  description : String
  input_schema : JsonVal
  handler : JsonVal → Except String JsonVal

/-- A named group of host tools. -/
structure HostToolServer where
  name : String
  tools : List HostTool := []
  version : String := "1.0.0"

/-- HostToolServer.get_tool: first tool with the given name, else None. -/
def HostToolServer.get_tool (s : HostToolServer) (name : String) : Option HostTool :=
  s.tools.find? (fun t => t.name == name)

/-- The _tool_map construction of HostToolDispatcher.__init__ for one
server: each tool is stored under the qualified key server.name:tool.name,
and also under the bare tool name when that key is not yet taken. -/
def insertServerTools (server : HostToolServer)
    (m : List (String × (HostToolServer × HostTool))) :
    List (String × (HostToolServer × HostTool)) :=
  server.tools.foldl
    (fun acc tool =>
      let acc1 := assocSet (server.name ++ ":" ++ tool.name) (server, tool) acc
      if (assocGet tool.name acc1).isSome then acc1
      else assocSet tool.name (server, tool) acc1)
    m

/-- The full _tool_map over all servers, in registration order. -/
def buildToolMap (servers : List HostToolServer) :
    List (String × (HostToolServer × HostTool)) :=
  servers.foldl (fun acc server => insertServerTools server acc) []

/-- HostToolDispatcher: the server list plus the prebuilt lookup map. -/
structure HostToolDispatcher where
  servers : List HostToolServer
  tool_map : List (String × (HostToolServer × HostTool))

/-- HostToolDispatcher.__init__. -/
def mkHostToolDispatcher (servers : List HostToolServer) : HostToolDispatcher :=
  { servers := servers, tool_map := buildToolMap servers }

/-- HostToolDispatcher.get_tool: lookup by the qualified
server_name:tool_name key. -/
def HostToolDispatcher.get_tool (d : HostToolDispatcher)
    (server_name tool_name : String) : Option HostTool :=
  match assocGet (server_name ++ ":" ++ tool_name) d.tool_map with
  | some st => some st.2
  | none => none

/-- The host tool request dict, with the fields dispatch reads via
dict.get. -/
structure ToolRequest where
  request_id : Option String := none
  server_name : Option String := none
  tool_name : Option String := none
  tool_input : Option JsonVal := none
  tool_use_id : Option String := none
deriving DecidableEq, Repr

/-- The host tool response dict (the _type tag host_tool_response is
implicit in the type). -/
structure ToolResponse where
  request_id : String
  content : JsonVal
  is_error : Bool
deriving DecidableEq, Repr

/-- The normalization of a handler return value inside dispatch: a mapping
with a content key is used as-is; any other mapping becomes one text block
holding its JSON serialization; a string becomes one text block holding the
string; anything else becomes one text block holding str(result). -/
def normalizeContent : JsonVal → JsonVal
  | .obj kvs =>
      match assocGet "content" kvs with
      | some c => c
      | none => .arr [textBlock (JsonVal.dumps (.obj kvs))]
  | .str s => .arr [textBlock s]
  | v => .arr [textBlock (pyStr v)]

/-- HostToolDispatcher.dispatch.  freshId stands for the uuid4 fallback
used when the request carries no request_id.  The function is total: every
branch, including a raising handler, produces a response. -/
def HostToolDispatcher.dispatch (d : HostToolDispatcher) (req : ToolRequest)
    (freshId : String) : ToolResponse :=
  let request_id := req.request_id.getD freshId
  let server_name := req.server_name.getD ""
  let tool_name := req.tool_name.getD ""
  let tool_input := req.tool_input.getD (.obj [])
  match d.get_tool server_name tool_name with
  | none =>
      { request_id := request_id
        content := .arr [textBlock ("Error: Tool \x27" ++ tool_name ++
          "\x27 not found in server \x27" ++ server_name ++ "\x27")]
        is_error := true }
  | some tool =>
      match tool.handler tool_input with
      | .error e =>
          { request_id := request_id
            content := .arr [textBlock ("Error executing tool: " ++ e)]
            is_error := true }
      | .ok result =>
          { request_id := request_id
            content := normalizeContent result
            is_error := false }

/-- C5: dispatch always returns a response (it is a total function) echoing
the request's request_id; an unresolved (server_name, tool_name) pair gives
is_error with a message containing "not found"; a raising handler gives
is_error with a single text block carrying the exception's message; a
successful handler gives is_error false with the normalized value — a
mapping with a content key as-is, any other mapping one text block with its
JSON serialization, a string one text block with the string. -/
theorem c5_host_tool_dispatch (d : HostToolDispatcher) (req : ToolRequest)
    (rid freshId : String) (hrid : req.request_id = some rid) :
    ((d.dispatch req freshId).request_id = rid)
    ∧ (d.get_tool (req.server_name.getD "") (req.tool_name.getD "") = none →
        d.dispatch req freshId =
          { request_id := rid
            content := .arr [textBlock ("Error: Tool \x27" ++ req.tool_name.getD "" ++
              "\x27 not found in server \x27" ++ req.server_name.getD "" ++ "\x27")]
            is_error := true }
        ∧ "not found".data <:+: ("Error: Tool \x27" ++ req.tool_name.getD "" ++
            "\x27 not found in server \x27" ++ req.server_name.getD "" ++ "\x27").data)
    ∧ (∀ (tool : HostTool) (m : String),
        d.get_tool (req.server_name.getD "") (req.tool_name.getD "") = some tool →
        tool.handler (req.tool_input.getD (.obj [])) = .error m →
        d.dispatch req freshId =
          { request_id := rid
            content := .arr [textBlock ("Error executing tool: " ++ m)]
            is_error := true })
    ∧ (∀ (tool : HostTool) (result : JsonVal),
        d.get_tool (req.server_name.getD "") (req.tool_name.getD "") = some tool →
        tool.handler (req.tool_input.getD (.obj [])) = .ok result →
        d.dispatch req freshId =
          { request_id := rid, content := normalizeContent result, is_error := false })
    ∧ (∀ (kvs : List (String × JsonVal)) (c : JsonVal),
        assocGet "content" kvs = some c → normalizeContent (.obj kvs) = c)
    ∧ (∀ (kvs : List (String × JsonVal)),
        assocGet "content" kvs = none →
        normalizeContent (.obj kvs) = .arr [textBlock (JsonVal.dumps (.obj kvs))])
    ∧ (∀ (s : String), normalizeContent (.str s) = .arr [textBlock s]) := by
  refine ⟨?_, ?_, ?_, ?_, ?_, ?_, ?_⟩
  · cases hres : d.get_tool (req.server_name.getD "") (req.tool_name.getD "") with
    | none => simp [HostToolDispatcher.dispatch, hres, hrid]
    | some tool =>
        cases hh : tool.handler (req.tool_input.getD (.obj [])) with
        | error m => simp [HostToolDispatcher.dispatch, hres, hh, hrid]
        | ok result => simp [HostToolDispatcher.dispatch, hres, hh, hrid]
  · intro hres
    constructor
    · simp [HostToolDispatcher.dispatch, hres, hrid]
    · refine ⟨"Error: Tool \x27".data ++ (req.tool_name.getD "").data ++ "\x27 ".data,
        " in server \x27".data ++ (req.server_name.getD "").data ++ "\x27".data, ?_⟩
      have hsplit : ("\x27 not found in server \x27" : String).data =
          "\x27 ".data ++ "not found".data ++ " in server \x27".data := by decide
      simp [String.data_append, hsplit, List.append_assoc]
  · intro tool m hres hh
    simp [HostToolDispatcher.dispatch, hres, hh, hrid]
  · intro tool result hres hh
    simp [HostToolDispatcher.dispatch, hres, hh, hrid]
  · intro kvs c hc
    simp [normalizeContent, hc]
  · intro kvs hc
    simp [normalizeContent, hc]
  · intro s
    rfl

theorem c5_host_tool_dispatch_witness :
    ((mkHostToolDispatcher
        [{ name := "test"
           tools := [{ name := "echo", description := "Echo a message"
                       input_schema := .obj []
                       handler := fun v =>
                         .ok (.obj [("content", .arr [textBlock (pyStr v)])]) }] }]).dispatch
        { request_id := some "r1", server_name := some "test", tool_name := some "echo"
          tool_input := some (.str "hello world") } "fresh").request_id = "r1" :=
  (c5_host_tool_dispatch
    (mkHostToolDispatcher
      [{ name := "test"
         tools := [{ name := "echo", description := "Echo a message"
                     input_schema := .obj []
                     handler := fun v =>
                       .ok (.obj [("content", .arr [textBlock (pyStr v)])]) }] }])
    { request_id := some "r1", server_name := some "test", tool_name := some "echo"
      tool_input := some (.str "hello world") } "r1" "fresh" rfl).1

/-! ## Session orchestration (_sandbox.py) -/

/-- Outcome of the completion logic after the sandbox process has exited:
exit code zero is success; CLINotInstalledError and AgentExecutionError
are the raised failure kinds. -/
inductive ExecOutcome where
  | success
  | cliNotInstalled
  | executionError (message : String) (exit_code : Int)
deriving DecidableEq, Repr

/-- The completion logic of SandboxManager.execute_agent and
_execute_with_host_features after process.wait: when the exit code is
exactly 1 and stderr contains both "ModuleNotFoundError" and
"claude_agent_sdk", CLINotInstalledError is raised; then any nonzero exit
code raises AgentExecutionError whose message interpolates the exit code
and the captured stderr and whose exit_code attribute is the exit code. -/
def completionOutcome (exit_code : Int) (stderr : String) : ExecOutcome :=
  if exit_code = 1 ∧ strContains stderr "ModuleNotFoundError" = true ∧
      strContains stderr "claude_agent_sdk" = true then
    .cliNotInstalled
  else if exit_code ≠ 0 then
    .executionError ("Agent execution failed with exit code " ++ toString exit_code ++
      ": " ++ stderr) exit_code
  else
    .success

/-- C9 counterexample: an exit code of 2 whose stderr matches the
missing-dependency pattern is NOT elevated to CLINotInstalledError — the
source only checks the pattern when the exit code is exactly 1 — so the
claim's exception clause fails for this nonzero exit code. -/
theorem c9_counterexample :
    strContains "ModuleNotFoundError: No module named \x27claude_agent_sdk\x27"
        "ModuleNotFoundError" = true ∧
    strContains "ModuleNotFoundError: No module named \x27claude_agent_sdk\x27"
        "claude_agent_sdk" = true ∧
    completionOutcome 2 "ModuleNotFoundError: No module named \x27claude_agent_sdk\x27" ≠
      ExecOutcome.cliNotInstalled := by
  decide

/-- C9 (amended): exit code zero is the only success outcome; every nonzero
exit code raises AgentExecutionError carrying that exit code and the
captured stderr in its message, except that when the exit code is exactly 1
and the stderr matches the missing-dependency pattern (ModuleNotFoundError
naming claude_agent_sdk), CLINotInstalledError is raised instead. -/
theorem c9_exit_code_semantics (exit_code : Int) (stderr : String) :
    (completionOutcome exit_code stderr = .success ↔ exit_code = 0)
    ∧ (exit_code ≠ 0 →
        ((exit_code = 1 ∧ strContains stderr "ModuleNotFoundError" = true ∧
            strContains stderr "claude_agent_sdk" = true) →
          completionOutcome exit_code stderr = .cliNotInstalled)
        ∧ (¬(exit_code = 1 ∧ strContains stderr "ModuleNotFoundError" = true ∧
              strContains stderr "claude_agent_sdk" = true) →
          completionOutcome exit_code stderr =
            .executionError ("Agent execution failed with exit code " ++
              toString exit_code ++ ": " ++ stderr) exit_code)) := by
  by_cases hpat : exit_code = 1 ∧ strContains stderr "ModuleNotFoundError" = true ∧
      strContains stderr "claude_agent_sdk" = true
  · have h0 : exit_code ≠ 0 := by rw [hpat.1]; decide
    refine ⟨?_, ?_⟩
    · simp [completionOutcome, hpat, h0]
    · intro _
      exact ⟨fun _ => by simp [completionOutcome, hpat], fun hc => absurd hpat hc⟩
  · by_cases h0 : exit_code = 0
    · subst h0
      refine ⟨by simp [completionOutcome, hpat], ?_⟩
      intro h
      exact absurd rfl h
    · refine ⟨?_, ?_⟩
      · simp [completionOutcome, hpat, h0]
      · intro _
        exact ⟨fun hp => absurd hp hpat, fun _ => by simp [completionOutcome, hpat, h0]⟩

theorem c9_exit_code_semantics_witness :
    completionOutcome 3 "boom" =
      ExecOutcome.executionError "Agent execution failed with exit code 3: boom" 3 :=
  ((c9_exit_code_semantics 3 "boom").2 (by decide)).2 (by decide)

/-- Loop-order events of the line-reading loop of
_execute_with_host_features, indexed by line number. -/
inductive LoopEvent where
  | readLine (i : Nat)
  | dispatchStart (i : Nat)
  | dispatchEnd (i : Nat)
  | writeResponse (i : Nat)
  | yieldMessage (i : Nat)
deriving DecidableEq, Repr

/-- The line index an event belongs to. -/
def eventLine : LoopEvent → Nat
  | .readLine i => i
  | .dispatchStart i => i
  | .dispatchEnd i => i
  | .writeResponse i => i
  | .yieldMessage i => i

/-- Classification of one decoded line in the reading loop. -/
inductive LineKind where
  | hookPre
  | hookPost
  | hostTool
  | agentMsg
  | unparseable
deriving DecidableEq, Repr

/-- The loop-order events of handling the i-th line, translated from the
body of the async-for of _execute_with_host_features: a PreToolUse hook
request is dispatched with an inline await and its response written to
stdin; a PostToolUse request is dispatched with an inline await; a host
tool request is dispatched with an inline await and its response written;
an agent message is yielded; an unparseable line is dropped. -/
def lineEvents (i : Nat) : LineKind → List LoopEvent
  | .hookPre => [.readLine i, .dispatchStart i, .dispatchEnd i, .writeResponse i]
  | .hookPost => [.readLine i, .dispatchStart i, .dispatchEnd i]
  | .hostTool => [.readLine i, .dispatchStart i, .dispatchEnd i, .writeResponse i]
  | .agentMsg => [.readLine i, .yieldMessage i]
  | .unparseable => [.readLine i]

/-- The event trace of the reading loop from line index i on: the single
coroutine runs the loop body for one line to completion — including the
awaited dispatch — before it reads the next line. -/
def hostLoopTraceFrom (i : Nat) : List LineKind → List LoopEvent
  | [] => []
  | k :: rest => lineEvents i k ++ hostLoopTraceFrom (i + 1) rest

/-- The event trace of the whole reading loop. -/
def hostLoopTrace (lines : List LineKind) : List LoopEvent :=
  hostLoopTraceFrom 0 lines

theorem eventLine_of_mem_lineEvents (i : Nat) (k : LineKind) (e : LoopEvent)
    (h : e ∈ lineEvents i k) : eventLine e = i := by
  cases k with
  | hookPre =>
      simp [lineEvents] at h
      rcases h with rfl | rfl | rfl | rfl <;> rfl
  | hookPost =>
      simp [lineEvents] at h
      rcases h with rfl | rfl | rfl <;> rfl
  | hostTool =>
      simp [lineEvents] at h
      rcases h with rfl | rfl | rfl | rfl <;> rfl
  | agentMsg =>
      simp [lineEvents] at h
      rcases h with rfl | rfl <;> rfl
  | unparseable =>
      simp [lineEvents] at h
      subst h
      rfl

/-- C8 counterexample: with two host-tool request lines, the reading of the
second line does not precede the completion of the first line's dispatch —
the loop awaits the dispatch inline, so fire-and-continue does not hold.
The concrete trace makes the sequential ordering explicit. -/
theorem c8_counterexample :
    hostLoopTrace [.hostTool, .hostTool] =
      [.readLine 0, .dispatchStart 0, .dispatchEnd 0, .writeResponse 0,
       .readLine 1, .dispatchStart 1, .dispatchEnd 1, .writeResponse 1] ∧
    ¬ ((hostLoopTrace [.hostTool, .hostTool]).indexOf (.readLine 1) <
       (hostLoopTrace [.hostTool, .hostTool]).indexOf (.dispatchEnd 0)) := by
  decide

/-- C8 (amended): the reading loop is head-of-line blocking: handling a
line runs to completion — the dispatch is awaited inline and, for requests,
the response is written — before the next line is read, so every event of
the first line precedes every event of the later lines in the trace.  The
second conjunct shows the tail of the trace holds only events of later
lines. -/
theorem c8_dispatch_blocks_line_loop :
    (∀ (i : Nat) (k : LineKind) (rest : List LineKind),
      hostLoopTraceFrom i (k :: rest) = lineEvents i k ++ hostLoopTraceFrom (i + 1) rest)
    ∧ (∀ (i : Nat) (lines : List LineKind) (e : LoopEvent),
        e ∈ hostLoopTraceFrom i lines → i ≤ eventLine e)
    ∧ (∀ (rest : List LineKind),
        hostLoopTrace (.hostTool :: rest) =
          [.readLine 0, .dispatchStart 0, .dispatchEnd 0, .writeResponse 0] ++
            hostLoopTraceFrom 1 rest) := by
  refine ⟨fun i k rest => rfl, ?_, fun rest => rfl⟩
  intro i lines
  induction lines generalizing i with
  | nil =>
      intro e h
      simp [hostLoopTraceFrom] at h
  | cons k rest ih =>
      intro e h
      simp only [hostLoopTraceFrom] at h
      rcases List.mem_append.mp h with h | h
      · exact le_of_eq (eventLine_of_mem_lineEvents i k e h).symm
      · exact Nat.le_of_succ_le (ih (i + 1) e h)
